import Mathlib

/-!
Verification of the monitor_client_rs repository: a shallow embedding of
src/types.rs, src/helpers.rs and src/client.rs, with theorems settling the
behavioural claims about the client library.

Modelling conventions:
  - Rust `String` is Lean `String`; Rust byte length (`str::len`) is modelled
    by `byteLen` (the sum of the UTF-8 sizes of the characters, which is
    exactly the UTF-8 byte length).
  - Rust `Option<T>` is `Option T`, `Vec<T>` is `List T`,
    `Result<T, String>` is `Except String T`.
  - A Rust panic (`unwrap` on `None`, index underflow) is modelled by an
    `Option` result being `none`.
  - `mungos::ObjectId` is modelled by its hex string; its serde JSON form is
    an object with a single "$oid" field.
  - The network is modelled by passing the responses in explicitly: the
    response-classification helpers take the transport outcome as a value,
    and the bulk delete takes the listing result and a per-id delete outcome
    function, recording the delete calls and callback invocations it performs
    as an event trace.
-/

namespace MonitorClient

/-- Port or volume mapping from src/types.rs (`struct Conversion`). -/
structure Conversion where
  «local» : String
  container : String
deriving DecidableEq, Repr

/-- Environment variable pair from src/types.rs (`struct EnvironmentVar`). -/
structure EnvironmentVar where
  «variable» : String
  value : String
deriving DecidableEq, Repr

/-- The central resource from src/types.rs (`struct Deployment`).
`id` models `Option<ObjectId>` by the identifier's hex string. -/
structure Deployment where
  id : Option String
  name : String
  server_id : String
  build_id : Option String
  image : Option String
  ports : Option (List Conversion)
  volumes : Option (List Conversion)
  environment : Option (List EnvironmentVar)
  network : Option String
  restart : Option String
  container_user : Option String
  docker_account : Option String
deriving DecidableEq, Repr

/-- Rust `#[derive(Default)]` for `Deployment`: every `String` field defaults
to the empty string and every `Option` field to `None`. -/
def Deployment.default : Deployment :=
  { id := none, name := "", server_id := "", build_id := none, image := none,
    ports := none, volumes := none, environment := none, network := none,
    restart := none, container_user := none, docker_account := none }

/-- Builder from src/types.rs (`struct DeploymentBuilder`). -/
structure DeploymentBuilder where
  deployment : Deployment
deriving DecidableEq, Repr

/-- `DeploymentBuilder::new`: `DeploymentBuilder { ..Default::default() }`. -/
def DeploymentBuilder.new : DeploymentBuilder :=
  { deployment := Deployment.default }

/-- `DeploymentBuilder::name`. -/
def DeploymentBuilder.name (b : DeploymentBuilder) (name : String) :
    DeploymentBuilder :=
  { b with deployment := { b.deployment with name := name } }

/-- `DeploymentBuilder::server_id`. -/
def DeploymentBuilder.server_id (b : DeploymentBuilder) (server_id : String) :
    DeploymentBuilder :=
  { b with deployment := { b.deployment with server_id := server_id } }

/-- `DeploymentBuilder::build_id`. -/
def DeploymentBuilder.build_id (b : DeploymentBuilder)
    (build_id : Option String) : DeploymentBuilder :=
  { b with deployment := { b.deployment with build_id := build_id } }

/-- `DeploymentBuilder::image`. -/
def DeploymentBuilder.image (b : DeploymentBuilder)
    (image : Option String) : DeploymentBuilder :=
  { b with deployment := { b.deployment with image := image } }

/-- `DeploymentBuilder::docker_account`. -/
def DeploymentBuilder.docker_account (b : DeploymentBuilder)
    (docker_account : Option String) : DeploymentBuilder :=
  { b with deployment := { b.deployment with docker_account := docker_account } }

/-- `DeploymentBuilder::add_environment`: push onto the backing list if it
exists, otherwise create a fresh one-element list. -/
def DeploymentBuilder.add_environment (b : DeploymentBuilder)
    («variable» value : String) : DeploymentBuilder :=
  let env_var : EnvironmentVar := { «variable» := «variable», value := value }
  match b.deployment.environment with
  | some env =>
      { b with deployment :=
          { b.deployment with environment := some (env ++ [env_var]) } }
  | none =>
      { b with deployment :=
          { b.deployment with environment := some [env_var] } }

/-- `DeploymentBuilder::add_port`: push onto the backing list if it exists,
otherwise create a fresh one-element list. -/
def DeploymentBuilder.add_port (b : DeploymentBuilder)
    («local» container : String) : DeploymentBuilder :=
  let port : Conversion := { «local» := «local», container := container }
  match b.deployment.ports with
  | some ports =>
      { b with deployment :=
          { b.deployment with ports := some (ports ++ [port]) } }
  | none =>
      { b with deployment := { b.deployment with ports := some [port] } }

/-- `DeploymentBuilder::add_volume`: push onto the backing list if it exists,
otherwise create a fresh one-element list. -/
def DeploymentBuilder.add_volume (b : DeploymentBuilder)
    («local» container : String) : DeploymentBuilder :=
  let volume : Conversion := { «local» := «local», container := container }
  match b.deployment.volumes with
  | some volumes =>
      { b with deployment :=
          { b.deployment with volumes := some (volumes ++ [volume]) } }
  | none =>
      { b with deployment := { b.deployment with volumes := some [volume] } }

/-- `DeploymentBuilder::network`. -/
def DeploymentBuilder.network (b : DeploymentBuilder) (network : String) :
    DeploymentBuilder :=
  { b with deployment := { b.deployment with network := some network } }

/-- `DeploymentBuilder::build`: returns the accumulated deployment. -/
def DeploymentBuilder.build (b : DeploymentBuilder) : Deployment :=
  b.deployment

/-! ### JSON values and serde serialization (src/types.rs derive attributes) -/

/-- JSON values, as produced by serde_json. -/
inductive Json where
  | null : Json
  | str : String → Json
  | arr : List Json → Json
  | obj : List (String × Json) → Json

/-- The fields of a JSON object (empty for non-objects). -/
def Json.fields : Json → List (String × Json)
  | .obj fs => fs
  | _ => []

/-- The keys of a JSON object (empty for non-objects). -/
def Json.keys (j : Json) : List String :=
  j.fields.map Prod.fst

/-- Serde field emission under `#[serde(skip_serializing_if = "Option::is_none")]`:
an absent option contributes no key at all, a present one contributes its key. -/
def optField (key : String) : Option Json → List (String × Json)
  | none => []
  | some j => [(key, j)]

/-- Serde JSON form of a `mungos::ObjectId` (bson extended JSON). -/
def serializeObjectId (oid : String) : Json :=
  .obj [("$oid", .str oid)]

/-- Serde JSON form of `Conversion` (field names as declared). -/
def serializeConversion (c : Conversion) : Json :=
  .obj [("local", .str c.«local»), ("container", .str c.container)]

/-- Serde JSON form of `EnvironmentVar` (field names as declared). -/
def serializeEnvironmentVar (v : EnvironmentVar) : Json :=
  .obj [("variable", .str v.«variable»), ("value", .str v.value)]

/-- Serde JSON form of `Deployment`: fields in declaration order, with
`rename_all = "camelCase"`, the explicit renames `_id`, `serverID`, `buildID`,
and `skip_serializing_if = "Option::is_none"` on every optional field. -/
def serializeDeployment (d : Deployment) : Json :=
  .obj (optField "_id" (d.id.map serializeObjectId)
    ++ [("name", .str d.name), ("serverID", .str d.server_id)]
    ++ optField "buildID" (d.build_id.map .str)
    ++ optField "image" (d.image.map .str)
    ++ optField "ports" (d.ports.map fun l => .arr (l.map serializeConversion))
    ++ optField "volumes" (d.volumes.map fun l => .arr (l.map serializeConversion))
    ++ optField "environment"
        (d.environment.map fun l => .arr (l.map serializeEnvironmentVar))
    ++ optField "network" (d.network.map .str)
    ++ optField "restart" (d.restart.map .str)
    ++ optField "containerUser" (d.container_user.map .str)
    ++ optField "dockerAccount" (d.docker_account.map .str))

/-! ### enum_as_string (src/helpers.rs) and RestartMode (src/types.rs) -/

/-- Hexadecimal digit used by serde_json in \u escapes. -/
def hexDigit (n : Nat) : Char :=
  if n < 10 then Char.ofNat (48 + n) else Char.ofNat (87 + n)

/-- serde_json escaping of one character inside a JSON string: quote and
backslash get a backslash escape, the named control characters get their
short escapes, other control characters get \u00XX, everything else is
emitted verbatim. -/
def jsonEscapeChar (c : Char) : List Char :=
  if c = '"' then ['\\', '"']
  else if c = '\\' then ['\\', '\\']
  else if c = Char.ofNat 8 then ['\\', 'b']
  else if c = Char.ofNat 9 then ['\\', 't']
  else if c = Char.ofNat 10 then ['\\', 'n']
  else if c = Char.ofNat 12 then ['\\', 'f']
  else if c = Char.ofNat 13 then ['\\', 'r']
  else if c.toNat < 32 then
    ['\\', 'u', '0', '0', hexDigit (c.toNat / 16), hexDigit (c.toNat % 16)]
  else [c]

/-- `serde_json::to_string` of a JSON string value with contents `w`:
a quote, the escaped contents, a quote. -/
def jsonEncodeString (w : String) : String :=
  String.mk ('"' :: ((w.toList.flatMap jsonEscapeChar) ++ ['"']))

/-- Rust `str::replace("\"", "")`: since the pattern is the single quote
character and the replacement is empty, this removes every quote character. -/
def replaceQuotesWithEmpty (s : String) : String :=
  String.mk (s.toList.filter fun c => c ≠ '"')

/-- `enum_as_string` from src/helpers.rs:
`serde_json::to_string(e).unwrap().replace("\"", "")`.
A serializable unit enum variant is represented by its serde wire name `w`;
serde_json serializes it as the JSON string of `w`. -/
def enum_as_string (w : String) : String :=
  replaceQuotesWithEmpty (jsonEncodeString w)

/-- What the specification text describes for `enum_as_string`: serialize to
JSON and strip exactly the two surrounding quote characters, leaving the
interior of the serialized string unchanged. -/
def enum_as_string_spec (w : String) : String :=
  String.mk ((jsonEncodeString w).toList.drop 1).dropLast

/-- `enum RestartMode` from src/types.rs. -/
inductive RestartMode where
  | NoRestart : RestartMode
  | UnlessStopped : RestartMode
  | OnFailure : RestartMode
  | Always : RestartMode
deriving DecidableEq, Repr

/-- The serde wire name of each `RestartMode` variant, from its
`#[serde(rename = "...")]` attribute. -/
def RestartMode.wireName : RestartMode → String
  | .NoRestart => "no"
  | .UnlessStopped => "unless-stopped"
  | .OnFailure => "on-failure"
  | .Always => "always"

/-- `DeploymentBuilder::restart`: stores `enum_as_string(&restart)`. -/
def DeploymentBuilder.restart (b : DeploymentBuilder) (restart : RestartMode) :
    DeploymentBuilder :=
  { b with deployment :=
      { b.deployment with restart := some (enum_as_string restart.wireName) } }

/-! ### Client (src/client.rs) -/

/-- Rust `str::len`: the UTF-8 byte length of a string. -/
def byteLen (s : String) : Nat :=
  (s.toList.map Char.utf8Size).sum

/-- `Client::parse_url` from src/client.rs:
`if url.chars().nth(url.len() - 1).unwrap() == '/' { &url[..url.len() - 1] } else { url }`.
The index is the BYTE length minus one, while `chars().nth` counts characters,
so the lookup returns `None` (and `unwrap` panics, modelled as `none`) for the
empty string and for every string containing a multi-byte character; when the
lookup succeeds every character is single-byte, so the byte slice
`..url.len() - 1` is exactly the string without its last character.
On empty input Rust's `url.len() - 1` underflows: a panic either directly
(debug) or via `nth` on the wrapped huge index returning `None` (release);
`Nat` subtraction gives index 0 on the empty character list, also `none`. -/
def parse_url (url : String) : Option String :=
  match url.toList.get? (byteLen url - 1) with
  | none => none
  | some c =>
      if c = '/' then some (String.mk (url.toList.take (byteLen url - 1)))
      else some url

/-- The client record from src/client.rs; the reqwest transport handle holds
no observable state and is omitted. -/
structure Client where
  url : String
  token : String
deriving DecidableEq, Repr

/-- `Client::new_with_token`: normalizes the URL (panicking where `parse_url`
panics) and stores the given token; no network call. -/
def Client.new_with_token (url token : String) : Option Client :=
  (parse_url url).map fun u => { url := u, token := token }

/-- `Client::new`: calls `parse_url` on the URL before the login request, so
a `parse_url` panic propagates regardless of the network; the login response
body text is passed in as `loginToken`. -/
def Client.new (url : String) (loginToken : String) : Option Client :=
  (parse_url url).map fun u => { url := u, token := loginToken }

/-! ### Response classification (src/client.rs: get / get_string / post /
delete / delete_string all share one shape) -/

/-- A received HTTP response, as observed by the client: its status code,
the outcome of reading the body as text (`res.text()`), and the outcome of
decoding the body as JSON into the expected type (`res.json()`). -/
structure SimResponse (R : Type) where
  status : Nat
  text : Except String String
  json : Except String R

/-- The display form of the status in the source's `format!("{status}: ...")`
(reqwest renders the numeric code; its trailing canonical-reason phrase does
not affect any property stated here and is elided). -/
def statusDisplay (status : Nat) : String :=
  toString status

/-- Shared response handling of the typed helpers `Client::get`,
`Client::post` and `Client::delete`: a transport error is formatted from its
description; status 200 decodes the JSON body, a decode failure yielding
`"{status}: {decode-error}"`; any other status reads the body text and yields
`"{status}: {body}"` (or `"{status}: {text-error}"` if even reading fails). -/
def handleJsonResponse {R : Type}
    (res : Except String (SimResponse R)) : Except String R :=
  match res with
  | .ok res =>
      if res.status == 200 then
        match res.json with
        | .ok r => .ok r
        | .error e => .error (statusDisplay res.status ++ ": " ++ e)
      else
        match res.text with
        | .ok t => .error (statusDisplay res.status ++ ": " ++ t)
        | .error e => .error (statusDisplay res.status ++ ": " ++ e)
  | .error e => .error e

/-- Shared response handling of the text helpers `Client::get_string` and
`Client::delete_string`: identical to `handleJsonResponse` except that a
status-200 body is returned as text. -/
def handleTextResponse
    (res : Except String (SimResponse String)) : Except String String :=
  match res with
  | .ok res =>
      if res.status == 200 then
        match res.text with
        | .ok t => .ok t
        | .error e => .error (statusDisplay res.status ++ ": " ++ e)
      else
        match res.text with
        | .ok t => .error (statusDisplay res.status ++ ": " ++ t)
        | .error e => .error (statusDisplay res.status ++ ": " ++ e)
  | .error e => .error e

/-! ### delete_all_deployments_on_server (src/client.rs) -/

/-- Observable actions of the bulk delete: a `delete_deployment` call for an
identifier, and an invocation of the `on_delete` callback with a deployment's
full record. -/
inductive DeleteEvent where
  | deleteCall : String → DeleteEvent
  | callbackInvoke : Deployment → DeleteEvent
deriving DecidableEq, Repr

/-- The `Some(on_delete)` loop of `delete_all_deployments_on_server`: for each
filtered `(id, deployment)` pair in order, call `delete_deployment(id)`; on
error stop and return it (`?`), on success invoke the callback with the
deployment and continue. `del` gives each delete call's outcome; the returned
list is the trace of events in the order they happened. -/
def runDeletesWithCallback (del : String → Except String String) :
    List (String × Deployment) → List DeleteEvent × Except String Unit
  | [] => ([], .ok ())
  | (id, d) :: rest =>
      match del id with
      | .error e => ([.deleteCall id], .error e)
      | .ok _ =>
          let (tr, r) := runDeletesWithCallback del rest
          (.deleteCall id :: .callbackInvoke d :: tr, r)

/-- The `None` loop of `delete_all_deployments_on_server`: same deletes, no
callback invocations. -/
def runDeletesNoCallback (del : String → Except String String) :
    List (String × Deployment) → List DeleteEvent × Except String Unit
  | [] => ([], .ok ())
  | (id, _) :: rest =>
      match del id with
      | .error e => ([.deleteCall id], .error e)
      | .ok _ =>
          let (tr, r) := runDeletesNoCallback del rest
          (.deleteCall id :: tr, r)

/-- `Client::delete_all_deployments_on_server`: fetch the deployment mapping
(its unspecified iteration order modelled by the association list
`deployments`, propagating a fetch error via `?`), filter to the entries whose
`server_id` equals the argument, then run the delete loop — with per-item
callback when one is supplied (`withCallback`), without otherwise. Returns the
event trace and the result. -/
def delete_all_deployments_on_server
    (deployments : Except String (List (String × Deployment)))
    (del : String → Except String String)
    (withCallback : Bool) (server_id : String) :
    List DeleteEvent × Except String Unit :=
  match deployments with
  | .error e => ([], .error e)
  | .ok ds =>
      let filtered := ds.filter fun p => p.2.server_id == server_id
      if withCallback then runDeletesWithCallback del filtered
      else runDeletesNoCallback del filtered

/-- Sample deployment on server "s1". -/
def sampleD1 : Deployment :=
  { Deployment.default with name := "d1", server_id := "s1" }

/-- Sample deployment on server "s2". -/
def sampleD2 : Deployment :=
  { Deployment.default with name := "d2", server_id := "s2" }

/-- Second sample deployment on server "s1". -/
def sampleD3 : Deployment :=
  { Deployment.default with name := "d3", server_id := "s1" }

/-- A sample deployment mapping with three entries, two of which live on
server "s1". -/
def sampleDeployments : List (String × Deployment) :=
  [("i1", sampleD1), ("i2", sampleD2), ("i3", sampleD3)]

/-! ### Helper lemmas -/

theorem toList_mk (l : List Char) : (String.mk l).toList = l := rfl

theorem hexDigit_ne_quote : ∀ n < 16, hexDigit n ≠ '"' := by decide

theorem not_quote_mem_jsonEscapeChar (c : Char) (hc : c ≠ '"') :
    ∀ x ∈ jsonEscapeChar c, x ≠ '"' := by
  intro x hx
  unfold jsonEscapeChar at hx
  split_ifs at hx with h1 h2 h3 h4 h5 h6 h7 h8
  · exact absurd h1 hc
  · simp only [List.mem_cons, List.not_mem_nil, or_false] at hx
    rcases hx with hx | hx <;> (subst hx; decide)
  · simp only [List.mem_cons, List.not_mem_nil, or_false] at hx
    rcases hx with hx | hx <;> (subst hx; decide)
  · simp only [List.mem_cons, List.not_mem_nil, or_false] at hx
    rcases hx with hx | hx <;> (subst hx; decide)
  · simp only [List.mem_cons, List.not_mem_nil, or_false] at hx
    rcases hx with hx | hx <;> (subst hx; decide)
  · simp only [List.mem_cons, List.not_mem_nil, or_false] at hx
    rcases hx with hx | hx <;> (subst hx; decide)
  · simp only [List.mem_cons, List.not_mem_nil, or_false] at hx
    rcases hx with hx | hx <;> (subst hx; decide)
  · simp only [List.mem_cons, List.not_mem_nil, or_false] at hx
    rcases hx with hx | hx | hx | hx | hx | hx
    · subst hx; decide
    · subst hx; decide
    · subst hx; decide
    · subst hx; decide
    · subst hx; exact hexDigit_ne_quote _ (by omega)
    · subst hx; exact hexDigit_ne_quote _ (by omega)
  · simp only [List.mem_singleton] at hx
    subst hx; exact hc

theorem filter_flatMap_jsonEscapeChar (l : List Char) (h : ∀ c ∈ l, c ≠ '"') :
    (l.flatMap jsonEscapeChar).filter (fun c => c ≠ '"') =
      l.flatMap jsonEscapeChar := by
  rw [List.filter_eq_self]
  intro a ha
  rw [List.mem_flatMap] at ha
  obtain ⟨c, hc, hac⟩ := ha
  simpa using not_quote_mem_jsonEscapeChar c (h c hc) a hac

theorem foldl_add_port (calls : List (String × String)) (b : DeploymentBuilder)
    (acc : List Conversion) (h : b.deployment.ports = some acc) :
    ((calls.foldl (fun b p => b.add_port p.1 p.2) b)).deployment.ports =
      some (acc ++ calls.map fun p => (⟨p.1, p.2⟩ : Conversion)) := by
  induction calls generalizing b acc with
  | nil => simpa using h
  | cons p ps ih =>
      have hstep : ((b.add_port p.1 p.2)).deployment.ports =
          some (acc ++ [⟨p.1, p.2⟩]) := by
        simp [DeploymentBuilder.add_port, h]
      rw [List.foldl_cons, ih _ _ hstep]
      simp

theorem foldl_add_volume (calls : List (String × String))
    (b : DeploymentBuilder) (acc : List Conversion)
    (h : b.deployment.volumes = some acc) :
    ((calls.foldl (fun b p => b.add_volume p.1 p.2) b)).deployment.volumes =
      some (acc ++ calls.map fun p => (⟨p.1, p.2⟩ : Conversion)) := by
  induction calls generalizing b acc with
  | nil => simpa using h
  | cons p ps ih =>
      have hstep : ((b.add_volume p.1 p.2)).deployment.volumes =
          some (acc ++ [⟨p.1, p.2⟩]) := by
        simp [DeploymentBuilder.add_volume, h]
      rw [List.foldl_cons, ih _ _ hstep]
      simp

theorem foldl_add_environment (calls : List (String × String))
    (b : DeploymentBuilder) (acc : List EnvironmentVar)
    (h : b.deployment.environment = some acc) :
    ((calls.foldl (fun b p => b.add_environment p.1 p.2) b)).deployment.environment =
      some (acc ++ calls.map fun p => (⟨p.1, p.2⟩ : EnvironmentVar)) := by
  induction calls generalizing b acc with
  | nil => simpa using h
  | cons p ps ih =>
      have hstep : ((b.add_environment p.1 p.2)).deployment.environment =
          some (acc ++ [⟨p.1, p.2⟩]) := by
        simp [DeploymentBuilder.add_environment, h]
      rw [List.foldl_cons, ih _ _ hstep]
      simp

/-! ### Claims -/

/-- C10: the builder does not enforce the required fields:
`DeploymentBuilder::new().build()` succeeds and yields a `Deployment` whose
`name` and `server_id` are the empty string, whose `id` is absent, and whose
every optional field is absent; `build` is total, so no builder path rejects
a missing `name` or `server_id`. -/
theorem builder_new_build_defaults :
    DeploymentBuilder.new.build =
      { id := none, name := "", server_id := "", build_id := none,
        image := none, ports := none, volumes := none, environment := none,
        network := none, restart := none, container_user := none,
        docker_account := none } := rfl

/-- C6: each of the four `RestartMode` variants maps under `enum_as_string`
to exactly its fixed wire string, with no surrounding quotes and no
whitespace, and `DeploymentBuilder::restart` stores exactly that string in
the deployment's `restart` field. -/
theorem restart_mode_wire_strings :
    enum_as_string RestartMode.NoRestart.wireName = "no" ∧
    enum_as_string RestartMode.UnlessStopped.wireName = "unless-stopped" ∧
    enum_as_string RestartMode.OnFailure.wireName = "on-failure" ∧
    enum_as_string RestartMode.Always.wireName = "always" ∧
    ∀ (b : DeploymentBuilder) (m : RestartMode),
      ((b.restart m)).deployment.restart = some (enum_as_string m.wireName) := by
  refine ⟨by decide, by decide, by decide, by decide, ?_⟩
  intro b m
  rfl

/-- C5 counterexample: `enum_as_string` does NOT strip only the surrounding
quote characters. The Rust body is `.replace("\"", "")`, which removes every
quote character: for a serializable enumeration value whose wire name is
`a"b` (legal under `#[serde(rename = "a\"b")]`), serde_json serializes it as
the 6-character string `"a\"b"`; removing all quotes gives the 3 characters
`a\b`, while stripping only the surrounding quotes would leave the interior
escape intact, the 4 characters `a\"b`. -/
theorem enum_as_string_strips_interior_quote :
    enum_as_string "a\"b" = "a\\b" ∧
    enum_as_string_spec "a\"b" = "a\\\"b" ∧
    enum_as_string "a\"b" ≠ enum_as_string_spec "a\"b" := by
  refine ⟨by decide, by decide, by decide⟩

/-- C5 as amended: `enum_as_string` returns the JSON serialization with every
quote character removed; whenever the value's wire name contains no quote
character — true in particular of every `RestartMode` variant — this
coincides with stripping exactly the two surrounding quote characters and
leaving the interior of the serialized string unchanged. -/
theorem enum_as_string_removes_all_quotes :
    (∀ w : String,
        enum_as_string w = replaceQuotesWithEmpty (jsonEncodeString w)) ∧
    (∀ w : String, (∀ c ∈ w.toList, c ≠ '"') →
        enum_as_string w = enum_as_string_spec w) ∧
    (∀ m : RestartMode, enum_as_string m.wireName = enum_as_string_spec m.wireName) := by
  refine ⟨fun w => rfl, ?_, ?_⟩
  · intro w hw
    show replaceQuotesWithEmpty (jsonEncodeString w) = enum_as_string_spec w
    unfold replaceQuotesWithEmpty enum_as_string_spec jsonEncodeString
    simp only [toList_mk]
    refine congrArg String.mk ?_
    have h2 : List.filter (fun c => decide (c ≠ '"')) ['"'] = [] := by decide
    rw [List.filter_cons_of_neg (by decide)]
    rw [List.filter_append, filter_flatMap_jsonEscapeChar _ hw, h2]
    simp [List.dropLast_concat]
  · intro m
    cases m <;> decide

/-- C5 witness for the amended theorem's hypothesis, at the wire name of
`RestartMode::NoRestart`. -/
theorem enum_as_string_removes_all_quotes_witness :
    enum_as_string "no" = enum_as_string_spec "no" :=
  enum_as_string_removes_all_quotes.2.1 "no" (by decide)

/-- C8: each `add_port` / `add_volume` / `add_environment` call appends one
entry to the corresponding list (lazily creating it on first call), so `n`
calls starting from a fresh builder yield a list of length `n` in call order,
and a list field never touched stays absent (`none`, not an empty list). -/
theorem builder_list_accumulation :
    (∀ (b : DeploymentBuilder) (l c : String),
        ((b.add_port l c)).deployment.ports =
          some (b.deployment.ports.getD [] ++ [⟨l, c⟩])) ∧
    (∀ (b : DeploymentBuilder) (l c : String),
        ((b.add_volume l c)).deployment.volumes =
          some (b.deployment.volumes.getD [] ++ [⟨l, c⟩])) ∧
    (∀ (b : DeploymentBuilder) (v x : String),
        ((b.add_environment v x)).deployment.environment =
          some (b.deployment.environment.getD [] ++ [⟨v, x⟩])) ∧
    (∀ calls : List (String × String),
        ((calls.foldl (fun b p => b.add_port p.1 p.2)
            DeploymentBuilder.new)).deployment.ports =
          if calls = [] then none
          else some (calls.map fun p => (⟨p.1, p.2⟩ : Conversion))) ∧
    (∀ calls : List (String × String),
        ((calls.foldl (fun b p => b.add_volume p.1 p.2)
            DeploymentBuilder.new)).deployment.volumes =
          if calls = [] then none
          else some (calls.map fun p => (⟨p.1, p.2⟩ : Conversion))) ∧
    (∀ calls : List (String × String),
        ((calls.foldl (fun b p => b.add_environment p.1 p.2)
            DeploymentBuilder.new)).deployment.environment =
          if calls = [] then none
          else some (calls.map fun p => (⟨p.1, p.2⟩ : EnvironmentVar))) := by
  refine ⟨?_, ?_, ?_, ?_, ?_, ?_⟩
  · intro b l c
    cases h : b.deployment.ports <;> simp [DeploymentBuilder.add_port, h]
  · intro b l c
    cases h : b.deployment.volumes <;> simp [DeploymentBuilder.add_volume, h]
  · intro b v x
    cases h : b.deployment.environment <;>
      simp [DeploymentBuilder.add_environment, h]
  · intro calls
    match calls with
    | [] => rfl
    | p :: ps =>
        simp only [reduceCtorEq, if_false, List.foldl_cons]
        have hstep : ((DeploymentBuilder.new.add_port p.1 p.2)).deployment.ports =
            some [⟨p.1, p.2⟩] := rfl
        rw [foldl_add_port ps _ _ hstep]
        simp
  · intro calls
    match calls with
    | [] => rfl
    | p :: ps =>
        simp only [reduceCtorEq, if_false, List.foldl_cons]
        have hstep : ((DeploymentBuilder.new.add_volume p.1 p.2)).deployment.volumes =
            some [⟨p.1, p.2⟩] := rfl
        rw [foldl_add_volume ps _ _ hstep]
        simp
  · intro calls
    match calls with
    | [] => rfl
    | p :: ps =>
        simp only [reduceCtorEq, if_false, List.foldl_cons]
        have hstep : ((DeploymentBuilder.new.add_environment p.1 p.2)).deployment.environment =
            some [⟨p.1, p.2⟩] := rfl
        rw [foldl_add_environment ps _ _ hstep]
        simp

theorem mem_map_fst_optField {x k : String} {o : Option Json} :
    x ∈ (optField k o).map Prod.fst ↔ x = k ∧ o.isSome := by
  cases o <;> simp [optField]

theorem mem_optField_iff {p : String × Json} {k : String} {o : Option Json} :
    p ∈ optField k o ↔ ∃ j, o = some j ∧ p = (k, j) := by
  cases o <;> simp [optField]

theorem not_mem_optField_none {p : String × Json} {k : String} :
    p ∉ optField k none := by
  simp [optField]

theorem pair_not_mem_optField {x : Json} {k k' : String} {o : Option Json}
    (hne : k ≠ k') : (k, x) ∉ optField k' o := by
  cases o with
  | none => simp [optField]
  | some j =>
      simp only [optField, List.mem_singleton, Prod.mk.injEq, not_and]
      exact fun h => absurd h hne

theorem no_null_mem_optField {α : Type} {k : String} {o : Option α}
    {f : α → Json} (hf : ∀ v, f v ≠ Json.null) :
    ∀ p ∈ optField k (o.map f), p.2 ≠ Json.null := by
  intro p hp
  cases o with
  | none => simp [optField] at hp
  | some v =>
      simp only [Option.map_some', optField, List.mem_singleton] at hp
      rw [hp]
      exact hf v

theorem sum_map_utf8Size_of_single (l : List Char)
    (h : ∀ c ∈ l, c.utf8Size = 1) :
    (l.map Char.utf8Size).sum = l.length := by
  induction l with
  | nil => rfl
  | cons c cs ih =>
      simp only [List.map_cons, List.sum_cons, List.length_cons,
        h c (List.mem_cons_self _ _)]
      rw [ih fun x hx => h x (List.mem_cons_of_mem _ hx)]
      omega

theorem parse_url_single_byte (url : String) (h1 : url ≠ "")
    (h2 : ∀ c ∈ url.toList, c.utf8Size = 1) :
    parse_url url =
      some (if url.toList.getLast? = some '/' then String.mk url.toList.dropLast
            else url) := by
  have hlen : byteLen url = url.toList.length :=
    sum_map_utf8Size_of_single url.toList h2
  have hne : url.toList ≠ [] := by
    intro hnil
    apply h1
    cases url with
    | mk data => rw [show data = [] from hnil]
  cases hc : url.toList.getLast? with
  | none => exact absurd (List.getLast?_eq_none_iff.mp hc) hne
  | some c =>
      have hget : url.toList.get? (byteLen url - 1) = some c := by
        rw [hlen, List.get?_eq_getElem?, ← List.getLast?_eq_getElem?, hc]
      have hred : parse_url url =
          if c = '/' then some (String.mk (url.toList.take (byteLen url - 1)))
          else some url := by
        unfold parse_url
        rw [hget]
      rw [hred]
      by_cases hslash : c = '/'
      · subst hslash
        rw [if_pos rfl, if_pos rfl, hlen, ← List.dropLast_eq_take]
      · rw [if_neg hslash, if_neg fun hcon => hslash (Option.some.inj hcon)]

/-- C4: serializing a `Deployment` omits every absent optional field
entirely: the field's key does not occur in the JSON object at all (in
particular no key is ever paired with a null value), and a `Deployment` with
only the required fields set serializes to an object containing exactly the
`name` and `serverID` keys. -/
theorem optional_fields_omitted (d : Deployment) :
    (d.id = none → "_id" ∉ (serializeDeployment d).keys) ∧
    (d.build_id = none → "buildID" ∉ (serializeDeployment d).keys) ∧
    (d.image = none → "image" ∉ (serializeDeployment d).keys) ∧
    (d.ports = none → "ports" ∉ (serializeDeployment d).keys) ∧
    (d.volumes = none → "volumes" ∉ (serializeDeployment d).keys) ∧
    (d.environment = none → "environment" ∉ (serializeDeployment d).keys) ∧
    (d.network = none → "network" ∉ (serializeDeployment d).keys) ∧
    (d.restart = none → "restart" ∉ (serializeDeployment d).keys) ∧
    (d.container_user = none → "containerUser" ∉ (serializeDeployment d).keys) ∧
    (d.docker_account = none → "dockerAccount" ∉ (serializeDeployment d).keys) ∧
    (∀ p ∈ (serializeDeployment d).fields, p.2 ≠ Json.null) ∧
    (serializeDeployment
        { Deployment.default with name := d.name, server_id := d.server_id } =
      Json.obj [("name", .str d.name), ("serverID", .str d.server_id)]) := by
  refine ⟨?_, ?_, ?_, ?_, ?_, ?_, ?_, ?_, ?_, ?_, ?_, rfl⟩
  · intro h
    simp [serializeDeployment, Json.keys, Json.fields, mem_map_fst_optField,
      not_mem_optField_none, pair_not_mem_optField, h]
  · intro h
    simp [serializeDeployment, Json.keys, Json.fields, mem_map_fst_optField,
      not_mem_optField_none, pair_not_mem_optField, h]
  · intro h
    simp [serializeDeployment, Json.keys, Json.fields, mem_map_fst_optField,
      not_mem_optField_none, pair_not_mem_optField, h]
  · intro h
    simp [serializeDeployment, Json.keys, Json.fields, mem_map_fst_optField,
      not_mem_optField_none, pair_not_mem_optField, h]
  · intro h
    simp [serializeDeployment, Json.keys, Json.fields, mem_map_fst_optField,
      not_mem_optField_none, pair_not_mem_optField, h]
  · intro h
    simp [serializeDeployment, Json.keys, Json.fields, mem_map_fst_optField,
      not_mem_optField_none, pair_not_mem_optField, h]
  · intro h
    simp [serializeDeployment, Json.keys, Json.fields, mem_map_fst_optField,
      not_mem_optField_none, pair_not_mem_optField, h]
  · intro h
    simp [serializeDeployment, Json.keys, Json.fields, mem_map_fst_optField,
      not_mem_optField_none, pair_not_mem_optField, h]
  · intro h
    simp [serializeDeployment, Json.keys, Json.fields, mem_map_fst_optField,
      not_mem_optField_none, pair_not_mem_optField, h]
  · intro h
    simp [serializeDeployment, Json.keys, Json.fields, mem_map_fst_optField,
      not_mem_optField_none, pair_not_mem_optField, h]
  intro p hp
  simp only [serializeDeployment, Json.fields, List.mem_append,
    List.mem_cons, List.not_mem_nil, or_false, mem_optField_iff,
    Option.map_eq_some', or_assoc] at hp
  rcases hp with ⟨j, ⟨v, hv, rfl⟩, rfl⟩ | rfl | rfl | ⟨j, ⟨v, hv, rfl⟩, rfl⟩ |
    ⟨j, ⟨v, hv, rfl⟩, rfl⟩ | ⟨j, ⟨v, hv, rfl⟩, rfl⟩ | ⟨j, ⟨v, hv, rfl⟩, rfl⟩ |
    ⟨j, ⟨v, hv, rfl⟩, rfl⟩ | ⟨j, ⟨v, hv, rfl⟩, rfl⟩ | ⟨j, ⟨v, hv, rfl⟩, rfl⟩ |
    ⟨j, ⟨v, hv, rfl⟩, rfl⟩ | ⟨j, ⟨v, hv, rfl⟩, rfl⟩
  all_goals simp [serializeObjectId]

/-- C4 witness: the theorem applied to the all-default deployment, whose
hypothesis `id = none` holds by `rfl`. -/
theorem optional_fields_omitted_witness :
    "_id" ∉ (serializeDeployment Deployment.default).keys :=
  (optional_fields_omitted Deployment.default).1 rfl

/-- C7: `parse_url` strips exactly one trailing slash when the last character
is a slash and returns the input unchanged otherwise; in particular repeated
trailing slashes are not all stripped. The general statement holds for every
input on which `parse_url` returns at all, i.e. every non-empty input whose
characters are all single-byte. -/
theorem parse_url_strips_one_trailing_slash :
    parse_url "http://host/" = some "http://host" ∧
    parse_url "http://host" = some "http://host" ∧
    parse_url "http://host//" = some "http://host/" ∧
    ∀ url : String, url ≠ "" → (∀ c ∈ url.toList, c.utf8Size = 1) →
      parse_url url =
        some (if url.toList.getLast? = some '/' then String.mk url.toList.dropLast
              else url) := by
  refine ⟨by decide, by decide, by decide, ?_⟩
  intro url h1 h2
  exact parse_url_single_byte url h1 h2

/-- C7 witness: the general clause applied to the concrete URL "a/". -/
theorem parse_url_strips_one_trailing_slash_witness :
    parse_url "a/" =
      some (if ("a/" : String).toList.getLast? = some '/'
            then String.mk ("a/" : String).toList.dropLast else "a/") :=
  parse_url_strips_one_trailing_slash.2.2.2 "a/" (by decide) (by decide)

/-- C9: `parse_url` is partial: it panics (modelled as `none`) on the empty
string, so `Client::new_with_token` and `Client::new` panic on an empty URL;
it also panics on inputs containing a multi-byte character, because the
character lookup position is the byte length minus one (witnessed by "é/");
and it returns normally on every non-empty input whose characters are all
single-byte. -/
theorem parse_url_partiality :
    parse_url "" = none ∧
    Client.new_with_token "" "token" = none ∧
    Client.new "" "token" = none ∧
    parse_url "é/" = none ∧
    Client.new_with_token "é/" "token" = none ∧
    ∀ url : String, url ≠ "" → (∀ c ∈ url.toList, c.utf8Size = 1) →
      (parse_url url).isSome := by
  refine ⟨rfl, rfl, rfl, by decide, by decide, ?_⟩
  intro url h1 h2
  rw [parse_url_single_byte url h1 h2]
  rfl

/-- C9 witness: the final clause applied to the concrete URL "http://host". -/
theorem parse_url_partiality_witness :
    (parse_url "http://host").isSome :=
  parse_url_partiality.2.2.2.2.2 "http://host" (by decide) (by decide)

/-- C3: response classification, shared by every Client operation. A status
other than 200 yields an error string built from the status code plus either
the body text or the text-read failure description; a status-200 response
whose body fails to decode yields an error (status plus decode error), not a
panic; a transport failure yields an error built from the transport error's
description. Concretely, a 404 with body "not found" yields an error string
that contains both "404" and "not found". -/
theorem response_classification {R : Type} (status : Nat)
    (t : Except String String) (j jx : Except String R)
    (body terr derr e : String) :
    (status ≠ 200 →
      handleJsonResponse (.ok ⟨status, .ok body, j⟩) =
        .error (statusDisplay status ++ ": " ++ body)) ∧
    (status ≠ 200 →
      handleJsonResponse (.ok ⟨status, .error terr, j⟩) =
        .error (statusDisplay status ++ ": " ++ terr)) ∧
    (status ≠ 200 →
      handleTextResponse (.ok ⟨status, .ok body, .ok body⟩) =
        .error (statusDisplay status ++ ": " ++ body)) ∧
    (handleJsonResponse (.ok ⟨200, t, (.error derr : Except String R)⟩) =
      .error (statusDisplay 200 ++ ": " ++ derr)) ∧
    (handleJsonResponse (R := R) (.error e) = .error e) ∧
    (handleTextResponse (.error e) = .error e) ∧
    (handleJsonResponse (.ok ⟨404, .ok "not found", jx⟩) =
      .error "404: not found") ∧
    (∃ a b : String, "404: not found" = a ++ "404" ++ b) ∧
    (∃ a b : String, "404: not found" = a ++ "not found" ++ b) := by
  refine ⟨?_, ?_, ?_, rfl, rfl, rfl, ?_, ⟨"", ": not found", by decide⟩,
    ⟨"404: ", "", by decide⟩⟩
  · intro h
    have hb : (status == 200) = false := by simpa using h
    simp [handleJsonResponse, hb]
  · intro h
    have hb : (status == 200) = false := by simpa using h
    simp [handleJsonResponse, hb]
  · intro h
    have hb : (status == 200) = false := by simpa using h
    simp [handleTextResponse, hb]
  · simp [handleJsonResponse, statusDisplay]
    cases jx <;> rfl

/-- C3 witness: the non-200 clause applied to status 404 with body
"not found" and a concrete decode outcome. -/
theorem response_classification_witness :
    handleJsonResponse (R := String) (.ok ⟨404, .ok "not found", .ok "x"⟩) =
      .error (statusDisplay 404 ++ ": " ++ "not found") :=
  (response_classification 404 (.ok "not found") (.ok "x") (.ok "x")
    "not found" "t" "d" "e").1 (by decide)

theorem runDeletesWithCallback_all_ok (del : String → Except String String)
    (l : List (String × Deployment)) (h : ∀ p ∈ l, (del p.1).isOk) :
    runDeletesWithCallback del l =
      (l.flatMap fun p => [DeleteEvent.deleteCall p.1,
        DeleteEvent.callbackInvoke p.2], .ok ()) := by
  induction l with
  | nil => rfl
  | cons p rest ih =>
      obtain ⟨id, d⟩ := p
      have hid := h (id, d) (List.mem_cons_self _ _)
      cases hdel : del id with
      | error e => rw [hdel] at hid; simp [Except.isOk, Except.toBool] at hid
      | ok v =>
          have ih' := ih fun q hq => h q (List.mem_cons_of_mem _ hq)
          simp [runDeletesWithCallback, hdel, ih']

theorem runDeletesNoCallback_all_ok (del : String → Except String String)
    (l : List (String × Deployment)) (h : ∀ p ∈ l, (del p.1).isOk) :
    runDeletesNoCallback del l =
      (l.map fun p => DeleteEvent.deleteCall p.1, .ok ()) := by
  induction l with
  | nil => rfl
  | cons p rest ih =>
      obtain ⟨id, d⟩ := p
      have hid := h (id, d) (List.mem_cons_self _ _)
      cases hdel : del id with
      | error e => rw [hdel] at hid; simp [Except.isOk, Except.toBool] at hid
      | ok v =>
          have ih' := ih fun q hq => h q (List.mem_cons_of_mem _ hq)
          simp [runDeletesNoCallback, hdel, ih']

theorem runDeletesWithCallback_first_error (del : String → Except String String)
    (pre post : List (String × Deployment)) (id : String) (d : Deployment)
    (e : String) (hpre : ∀ p ∈ pre, (del p.1).isOk)
    (hfail : del id = .error e) :
    runDeletesWithCallback del (pre ++ (id, d) :: post) =
      ((pre.flatMap fun p => [DeleteEvent.deleteCall p.1,
          DeleteEvent.callbackInvoke p.2]) ++ [DeleteEvent.deleteCall id],
       .error e) := by
  induction pre with
  | nil => simp [runDeletesWithCallback, hfail]
  | cons q rest ih =>
      obtain ⟨qid, qd⟩ := q
      have hq := hpre (qid, qd) (List.mem_cons_self _ _)
      cases hdel : del qid with
      | error e2 => rw [hdel] at hq; simp [Except.isOk, Except.toBool] at hq
      | ok v =>
          have ih' := ih fun r hr => hpre r (List.mem_cons_of_mem _ hr)
          simp [runDeletesWithCallback, hdel, ih']

theorem runDeletesNoCallback_first_error (del : String → Except String String)
    (pre post : List (String × Deployment)) (id : String) (d : Deployment)
    (e : String) (hpre : ∀ p ∈ pre, (del p.1).isOk)
    (hfail : del id = .error e) :
    runDeletesNoCallback del (pre ++ (id, d) :: post) =
      ((pre.map fun p => DeleteEvent.deleteCall p.1) ++
        [DeleteEvent.deleteCall id], .error e) := by
  induction pre with
  | nil => simp [runDeletesNoCallback, hfail]
  | cons q rest ih =>
      obtain ⟨qid, qd⟩ := q
      have hq := hpre (qid, qd) (List.mem_cons_self _ _)
      cases hdel : del qid with
      | error e2 => rw [hdel] at hq; simp [Except.isOk, Except.toBool] at hq
      | ok v =>
          have ih' := ih fun r hr => hpre r (List.mem_cons_of_mem _ hr)
          simp [runDeletesNoCallback, hdel, ih']

/-- C1: when every delete on the filtered entries succeeds, the bulk delete
issues a delete call for exactly the entries whose `server_id` equals the
argument (and no others), in iteration order; with a callback supplied, the
callback is invoked exactly once per deleted record, with that deployment's
full record, immediately after that item's delete call, in deletion order —
the event trace is exactly the alternation delete, callback, delete,
callback, … over the filtered entries. Without a callback the trace is the
delete calls alone. -/
theorem bulk_delete_deletes_matching_with_callback
    (ds : List (String × Deployment)) (del : String → Except String String)
    (server_id : String)
    (h : ∀ p ∈ ds.filter fun p => p.2.server_id == server_id,
      (del p.1).isOk) :
    delete_all_deployments_on_server (.ok ds) del true server_id =
      ((ds.filter fun p => p.2.server_id == server_id).flatMap
        fun p => [DeleteEvent.deleteCall p.1, DeleteEvent.callbackInvoke p.2],
       .ok ()) ∧
    delete_all_deployments_on_server (.ok ds) del false server_id =
      ((ds.filter fun p => p.2.server_id == server_id).map
        fun p => DeleteEvent.deleteCall p.1, .ok ()) := by
  unfold delete_all_deployments_on_server
  exact ⟨runDeletesWithCallback_all_ok del _ h,
    runDeletesNoCallback_all_ok del _ h⟩

/-- C2: if the delete of some filtered entry fails while all earlier deletes
succeed, the bulk delete returns that same error: the trace ends at the
failing delete call — no delete is issued for any later entry, the callback
is not invoked for the failed item, and the deletes (and callbacks) already
performed for the earlier items remain in the trace, not rolled back. -/
theorem bulk_delete_aborts_on_first_error
    (ds pre post : List (String × Deployment)) (id : String) (d : Deployment)
    (del : String → Except String String) (server_id : String) (e : String)
    (hsplit : (ds.filter fun p => p.2.server_id == server_id) =
      pre ++ (id, d) :: post)
    (hpre : ∀ p ∈ pre, (del p.1).isOk)
    (hfail : del id = .error e) :
    delete_all_deployments_on_server (.ok ds) del true server_id =
      ((pre.flatMap fun p => [DeleteEvent.deleteCall p.1,
          DeleteEvent.callbackInvoke p.2]) ++ [DeleteEvent.deleteCall id],
       .error e) ∧
    delete_all_deployments_on_server (.ok ds) del false server_id =
      ((pre.map fun p => DeleteEvent.deleteCall p.1) ++
        [DeleteEvent.deleteCall id], .error e) := by
  have hredT : delete_all_deployments_on_server (.ok ds) del true server_id =
      runDeletesWithCallback del
        (ds.filter fun p => p.2.server_id == server_id) := rfl
  have hredF : delete_all_deployments_on_server (.ok ds) del false server_id =
      runDeletesNoCallback del
        (ds.filter fun p => p.2.server_id == server_id) := rfl
  rw [hredT, hredF, hsplit]
  exact ⟨runDeletesWithCallback_first_error del pre post id d e hpre hfail,
    runDeletesNoCallback_first_error del pre post id d e hpre hfail⟩

/-- C1 witness: on the three-entry mapping with two matches, exactly two
deletes are issued (for the matching identifiers only) and the callback runs
exactly twice, each time right after its item's delete, in deletion order. -/
theorem bulk_delete_deletes_matching_with_callback_witness :
    delete_all_deployments_on_server (.ok sampleDeployments)
      (fun _ => .ok "deleted") true "s1" =
      ([DeleteEvent.deleteCall "i1", DeleteEvent.callbackInvoke sampleD1,
        DeleteEvent.deleteCall "i3", DeleteEvent.callbackInvoke sampleD3],
       .ok ()) :=
  ((bulk_delete_deletes_matching_with_callback sampleDeployments
      (fun _ => .ok "deleted") "s1" (by decide)).1).trans (by rfl)

/-- C2 witness: when the second of the two matching deletes fails, the run
returns that error, keeps the first delete and callback, and issues nothing
beyond the failing delete. -/
theorem bulk_delete_aborts_on_first_error_witness :
    delete_all_deployments_on_server (.ok sampleDeployments)
      (fun id => if id = "i3" then .error "boom" else .ok "deleted")
      true "s1" =
      ([DeleteEvent.deleteCall "i1", DeleteEvent.callbackInvoke sampleD1,
        DeleteEvent.deleteCall "i3"], .error "boom") :=
  ((bulk_delete_aborts_on_first_error sampleDeployments [("i1", sampleD1)] []
      "i3" sampleD3
      (fun id => if id = "i3" then .error "boom" else .ok "deleted")
      "s1" "boom" (by decide) (by decide) (by rfl)).1).trans (by rfl)

end MonitorClient
